import Mathlib

/-!
Shallow embedding of the authorization and SQL-utility code of the cubes
repository (files cubes/custom_auth.py and cubes/sql/utils.py), together
with theorems settling the specification claims about it.

Python sets of cube names are modelled as lists; every operation performed
on them (membership, iteration under any / filter) is insensitive to order
and duplication, so this is faithful.
-/

set_option autoImplicit false

/-- Modelled from the spec: the universal wildcard cube name. The constant
is imported from the repository's auth module, which is not among the
provided sources; the spec's scenario C and section 4.2 fix its value to
the single star. -/
def ALL_CUBES_WILDCARD : String := "*"

/-- Python str startswith, executable by structural recursion over the
character lists: the pattern leads the string. The corresponding core String
functions are defined by well-founded recursion over byte positions and do
not reduce inside the kernel, so the embedding uses these list versions. -/
def chars_lead (p s : List Char) : Bool :=
  match p, s with
  | [], _ => true
  | _ :: _, [] => false
  | c :: cs, d :: ds => c == d && chars_lead cs ds

/-- Python str startswith on strings. -/
def py_startswith (s p : String) : Bool := chars_lead p.data s.data

/-- Python str endswith on strings: the reversed pattern leads the reversed
string. -/
def py_endswith (s p : String) : Bool := chars_lead p.data.reverse s.data.reverse

/-- Python slicing that removes the first character. -/
def py_drop_first (s : String) : String := String.mk (s.data.drop 1)

/-- Python slicing that removes the last character. -/
def py_drop_last (s : String) : String := String.mk s.data.dropLast

/-- Python str lower. -/
def py_lower (s : String) : String := String.mk (s.data.map Char.toLower)

/-- The access-right decision object of cubes/custom_auth.py
(class with allowed/denied cube sets and the wildcard pattern lists
computed from them at construction). The fields named allowed_cube_starts
and denied_cube_starts hold what the source stores in the lists for
entries ending in a star (their leading part before the star); the
suffix lists hold the trailing part of entries starting with a star. -/
structure DematAccessRight where
  allowed_cubes : List String
  denied_cubes : List String
  allowed_cube_suffix : List String
  allowed_cube_starts : List String
  denied_cube_suffix : List String
  denied_cube_starts : List String
deriving DecidableEq

/-- The pattern-extraction step of the constructor (method of the access
right run at construction): each entry beginning with a star contributes
the remainder after the star to the suffix list, each entry ending with a
star contributes the part before the star to the starts list. An entry may
contribute to both. -/
def get_patterns_suffix (cubes : List String) : List String :=
  (cubes.filter (fun c => py_startswith c "*")).map py_drop_first

/-- Companion of get_patterns_suffix for trailing-star entries. -/
def get_patterns_starts (cubes : List String) : List String :=
  (cubes.filter (fun c => py_endswith c "*")).map py_drop_last

/-- Constructor of the access-right object restricted to the allow/deny
fields (the cell-restriction and hierarchy-limit fields are modelled
separately below, as the source never uses them together with these). -/
def dematAccessRight (allowed_cubes denied_cubes : List String) : DematAccessRight :=
  { allowed_cubes := allowed_cubes
    denied_cubes := denied_cubes
    allowed_cube_suffix := get_patterns_suffix allowed_cubes
    allowed_cube_starts := get_patterns_starts allowed_cubes
    denied_cube_suffix := get_patterns_suffix denied_cubes
    denied_cube_starts := get_patterns_starts denied_cubes }

/-- One half of is_allowed: the staged matching of a name against a cube
set with its derived pattern lists, exactly as the source computes the
allow flag (and, by the identical code, the deny flag): nothing matches
when the set is empty; otherwise first exact or wildcard membership, then,
only if still unmatched and the starts list is nonempty, any leading-part
match, then, only if still unmatched and the suffix list is nonempty, any
trailing-part match. -/
def cube_match (cubes starts suffix : List String) (name : String) : Bool :=
  if cubes.isEmpty then false
  else
    let m := cubes.contains name || cubes.contains ALL_CUBES_WILDCARD
    let m := if !m && !starts.isEmpty then starts.any (fun p => py_startswith name p) else m
    let m := if !m && !suffix.isEmpty then suffix.any (fun p => py_endswith name p) else m
    m

/-- is_allowed of the access right: compute the allow and deny matches by
the staged procedure and resolve by precedence (allow_after_denied true is
the deny_allow order, false is allow_deny). -/
def DematAccessRight.is_allowed (r : DematAccessRight) (name : String)
    (allow_after_denied : Bool := true) : Bool :=
  let allow := cube_match r.allowed_cubes r.allowed_cube_starts r.allowed_cube_suffix name
  let deny := cube_match r.denied_cubes r.denied_cube_starts r.denied_cube_suffix name
  if allow_after_denied then allow || !deny else allow && !deny

/-- Written from the spec's words (section 4.1 step 1), for comparison with
the staged source computation: a name allow/deny-matches when it is in the
set verbatim, or the universal wildcard is in the set, or any derived
leading or trailing pattern matches it. -/
def spec_cube_match (cubes starts suffix : List String) (name : String) : Bool :=
  cubes.contains name || cubes.contains ALL_CUBES_WILDCARD
    || starts.any (fun p => py_startswith name p)
    || suffix.any (fun p => py_endswith name p)

lemma staged_or (a s t c1 c2 : Bool) (hs : s = true → c1 = true)
    (ht : t = true → c2 = true) :
    (if !(if !a && c1 then s else a) && c2 then t
     else if !a && c1 then s else a) = (a || s || t) := by
  revert hs ht
  revert a s t c1 c2
  decide

lemma any_ne_nil {α : Type} (l : List α) (f : α → Bool) (h : l.any f = true) :
    l.isEmpty = false := by
  cases l with
  | nil => simp at h
  | cons x xs => rfl

lemma cube_match_eq_spec (cubes : List String) (name : String) :
    cube_match cubes (get_patterns_starts cubes) (get_patterns_suffix cubes) name
      = spec_cube_match cubes (get_patterns_starts cubes) (get_patterns_suffix cubes) name := by
  unfold cube_match spec_cube_match
  cases hc : cubes.isEmpty with
  | true =>
    have : cubes = [] := by
      cases cubes with
      | nil => rfl
      | cons x xs => simp [List.isEmpty] at hc
    subst this
    simp [get_patterns_starts, get_patterns_suffix]
  | false =>
    simp only [hc, Bool.false_eq_true, if_false]
    rw [staged_or]
    · intro h
      simp [any_ne_nil _ _ h]
    · intro h
      simp [any_ne_nil _ _ h]

/-- A cube, reduced to what the embedded code reads from it: its name. -/
structure Cube where
  name : String
deriving DecidableEq

/-- A dimension as the embedded code reads it: its name and the value of the
type entry of its info mapping (none when the entry is absent). -/
structure Dimension where
  name : String
  info_type : Option String
deriving DecidableEq

/-- A resolved cut: the dimension it constrains, the values it restricts the
dimension to, and the hidden flag. -/
structure Cut where
  dimension : Dimension
  values : List String
  hidden : Bool
deriving DecidableEq

/-- A cell, from the repository's cells module, which is not among the
provided sources. Modelled from the spec: an ordered sequence of resolved
cuts scoped to one cube. -/
structure Cell where
  cube : Cube
  cuts : List Cut
deriving DecidableEq

/-- Modelled from the spec: cell intersection produces a new cell whose cuts
are the concatenation of both operands' cuts. -/
def Cell.and (a b : Cell) : Cell :=
  { cube := a.cube, cuts := a.cuts ++ b.cuts }

/-- The structured (dictionary) form of a cut specification, with the fields
scenario C uses. -/
structure CutDict where
  dimension : String
  values : List String
deriving DecidableEq

/-- A serialized cut: either the string form, to be parsed against the cube's
dimension metadata, or the structured form. -/
inductive CutSpec where
  | strForm (s : String)
  | dictForm (d : CutDict)
deriving DecidableEq

/-- Failure modes of the single rights fetch: network transport failure, bad
HTTP status, malformed JSON. -/
inductive FetchError where
  | transport (msg : String)
  | httpStatus (code : Nat)
  | jsonDecode (msg : String)
deriving DecidableEq

/-- The JSON fields the authorize endpoint consumes. -/
structure AuthData where
  allowed_cubes : List String
  denied_cubes : List String
deriving DecidableEq

/-- DematAuthorizer.authorize, with the outcome of the single rights fetch
passed in: any failure of the fetch or of the access-right construction is
swallowed by the bare except into an empty result; on success the candidate
cubes passing is_allowed are kept in candidate order. Cubes are identified by
name, as the source stringifies each candidate before the decision. -/
def authorize (fetched : Except FetchError AuthData) (allow_after_denied : Bool)
    (cubes : List String) : List String :=
  match fetched with
  | .error _ => []
  | .ok data =>
    let right := dematAccessRight data.allowed_cubes data.denied_cubes
    cubes.filter (fun cube_name => right.is_allowed cube_name allow_after_denied)

/-- Configuration error raised by the authorizer's constructor. -/
inductive ConfigError where
  | configurationError (msg : String)
deriving DecidableEq

/-- The order option handling of the authorizer's constructor: a missing or
empty option falls back to deny_allow; allow_deny sets allow_after_denied to
false, deny_allow to true, anything else is a configuration error. -/
def demat_order_flag (order : Option String) : Except ConfigError Bool :=
  let o := match order with
    | none => "deny_allow"
    | some s => if s = "" then "deny_allow" else s
  if o = "allow_deny" then .ok false
  else if o = "deny_allow" then .ok true
  else .error (.configurationError o)

/-- Association-list lookup with a default: the semantics of dict get with a
default value (dict keys are unique, so first-match lookup is faithful). -/
def dict_get {α : Type} (m : List (String × α)) (k : String) (dflt : α) : α :=
  match m.lookup k with
  | some v => v
  | none => dflt

/-- The JSON field the restricted-cell endpoint consumes: per-cube-name lists
of cut specifications, a dict modelled as an association list. -/
structure RestrData where
  cell_restrictions : List (String × List CutSpec)
deriving DecidableEq

/-- The body of restricted_cell after the fetch: collect the specifications
registered under the cube's name, append those registered under the wildcard
name, resolve each through the supplied parsers (string form against the cube,
structured form directly), force hidden on each resolved cut, and build the
restriction cell; intersect the existing cell with it when one was supplied,
else return the restriction cell alone. The two parsers stand for the external
collaborators cut_from_string and cut_from_dict of the cells module. -/
def restricted_cell_core (cutFromString : String → Cube → Cut)
    (cutFromDict : CutDict → Cut) (data : RestrData) (cube : Cube)
    (cell : Option Cell) : Cell :=
  let cuts := dict_get data.cell_restrictions cube.name []
  let any_cuts := dict_get data.cell_restrictions ALL_CUBES_WILDCARD []
  let cuts := cuts ++ any_cuts
  let restriction : Cell :=
    if cuts.isEmpty then { cube := cube, cuts := [] }
    else
      { cube := cube
        cuts := cuts.map (fun spec =>
          let c := match spec with
            | .strForm s => cutFromString s cube
            | .dictForm d => cutFromDict d
          { c with hidden := true }) }
  match cell with
  | some existing => Cell.and existing restriction
  | none => restriction

/-- DematAuthorizer.restricted_cell: one rights fetch (its outcome passed in),
then the core computation; fetch failures propagate to the caller. -/
def restricted_cell (cutFromString : String → Cube → Cut)
    (cutFromDict : CutDict → Cut) (fetched : Except FetchError RestrData)
    (cube : Cube) (cell : Option Cell) : Except FetchError Cell :=
  match fetched with
  | .error e => .error e
  | .ok data => .ok (restricted_cell_core cutFromString cutFromDict data cube cell)

/-- A structured dimension/hierarchy/level reference. -/
structure DimensionLevelRef where
  dimension : String
  hierarchy : Option String
  level : Option String
deriving DecidableEq

/-- Modelled from the spec: string_to_dimension_level of the model module (not
among the provided sources) resolves a dotted dimension/hierarchy/level string
into a structured level reference. -/
def string_to_dimension_level (s : String) : DimensionLevelRef :=
  match s.splitOn "." with
  | [d] => { dimension := d, hierarchy := none, level := none }
  | [d, h] => { dimension := d, hierarchy := some h, level := none }
  | d :: h :: l :: _ => { dimension := d, hierarchy := some h, level := some l }
  | [] => { dimension := s, hierarchy := none, level := none }

/-- A raw hierarchy-limit entry: string form or already structured. -/
inductive HierarchyLimitSpec where
  | strForm (s : String)
  | structured (r : DimensionLevelRef)
deriving DecidableEq

/-- The JSON field the hierarchy-limits endpoint consumes. -/
structure HLData where
  hierarchy_limits : List (String × List HierarchyLimitSpec)
deriving DecidableEq

/-- The hierarchy-limit normalization of the access-right constructor: string
entries go through string_to_dimension_level, structured entries pass through. -/
def normalize_limit (l : HierarchyLimitSpec) : DimensionLevelRef :=
  match l with
  | .strForm s => string_to_dimension_level s
  | .structured r => r

/-- DematAuthorizer.hierarchy_limits: one rights fetch (its outcome passed in),
normalization of every registered limit, then the list under the cube's name,
empty when absent; fetch failures propagate to the caller. -/
def hierarchy_limits (fetched : Except FetchError HLData) (cube : String) :
    Except FetchError (List DimensionLevelRef) :=
  match fetched with
  | .error e => .error e
  | .ok data =>
    let limits := data.hierarchy_limits.map (fun p => (p.1, p.2.map normalize_limit))
    .ok (dict_get limits cube [])

/-- extract_permissions_from_cell of cubes/sql/utils.py: copy the cell, list
the cuts whose dimension's info type entry equals Permission; when that list
is nonempty, move those cuts into a permission cell and keep in the data cell
exactly the cuts not occurring in the permission cell; otherwise return the
copy unchanged and no permission cell. A missing input cell yields no cells. -/
def extract_permissions_from_cell (cell : Option Cell) : Option Cell × Option Cell :=
  match cell with
  | none => (none, none)
  | some c =>
    let aux_cell : Cell := { cube := c.cube, cuts := c.cuts }
    let permissions_cuts :=
      aux_cell.cuts.filter (fun cut => decide (cut.dimension.info_type = some "Permission"))
    if permissions_cuts.isEmpty then (some aux_cell, none)
    else
      let permissions_cell : Cell := { cube := aux_cell.cube, cuts := permissions_cuts }
      let data_cell : Cell :=
        { cube := aux_cell.cube
          cuts := aux_cell.cuts.filter (fun cut => !(decide (cut ∈ permissions_cell.cuts))) }
      (some data_cell, some permissions_cell)

/-- The split-indicator column name, from the browser module, which is not
among the provided sources. Modelled from the spec: the synthetic indicator
column of a split query; the claims only need it to be some fixed name. -/
def SPLIT_DIMENSION_NAME : String := "__split__"

/-- An ordering expression over a selected column: the bare column (natural
database order), or the column marked ascending or descending. -/
inductive OrderedColumn where
  | plain (column : String)
  | ascending (column : String)
  | descending (column : String)
deriving DecidableEq

/-- The Python errors the ordering code can raise: reading an undefined name,
or a missing mapping key. The unrecognized-direction branch of order_column
evaluates the name ArgumentError, which the module neither imports nor
defines, so the error actually raised there is a NameError for that name
(before the stray percent operator outside the call is ever reached). -/
inductive PyError where
  | nameError (name : String)
  | keyError (key : String)
deriving DecidableEq

/-- order_column of cubes/sql/utils.py: a missing or empty direction keeps the
bare column; a direction beginning with asc (case-insensitive) marks it
ascending, with desc descending; any other direction reaches the raise line,
whose evaluation fails on the undefined name ArgumentError. -/
def order_column (column : String) (order : Option String) :
    Except PyError OrderedColumn :=
  match order with
  | none => .ok (.plain column)
  | some o =>
    if o = "" then .ok (.plain column)
    else if py_startswith (py_lower o) "asc" then .ok (.ascending column)
    else if py_startswith (py_lower o) "desc" then .ok (.descending column)
    else .error (.nameError "ArgumentError")

/-- A relational statement, reduced to what order_query reads and writes: the
names of its selected columns and its ORDER BY terms. -/
structure Statement where
  columns : List String
  order_terms : List OrderedColumn
deriving DecidableEq

/-- The explicit-order pass of order_query: resolve each requested attribute
to its selected column (a KeyError when it is not among the zipped labels),
run it through order_column, and record the first occurrence of each
attribute in the ordered final_order mapping. -/
def explicit_order_pass (columns : List (String × String))
    (order : List (String × Option String))
    (fo : List (String × OrderedColumn)) :
    Except PyError (List (String × OrderedColumn)) :=
  match order with
  | [] => .ok fo
  | (attr_name, direction) :: rest =>
    match columns.lookup attr_name with
    | none => .error (.keyError attr_name)
    | some col =>
      match order_column col direction with
      | .error e => .error e
      | .ok oc =>
        explicit_order_pass columns rest
          (if (fo.map Prod.fst).contains attr_name then fo else fo ++ [(attr_name, oc)])

/-- The natural-order pass of order_query as the source writes it: for each
selected column, when its name has a natural order the guard goes on to read
the name order_by, which is defined nowhere in the module, so the first such
column raises a NameError; columns without a natural order are skipped. -/
def natural_order_pass (columns : List (String × String))
    (natural_order : List (String × Option String))
    (fo : List (String × OrderedColumn)) :
    Except PyError (List (String × OrderedColumn)) :=
  match columns with
  | [] => .ok fo
  | (name, _) :: rest =>
    if (natural_order.map Prod.fst).contains name then .error (.nameError "order_by")
    else natural_order_pass rest natural_order fo

/-- order_query of cubes/sql/utils.py: zip the label list with the selected
columns, place the split column first when it is selected (as the bare
column), run the explicit pass, then the natural pass, and append the final
ordering list to the statement's ORDER BY terms. -/
def order_query (statement : Statement) (order : List (String × Option String))
    (natural_order : List (String × Option String)) (labels : List String) :
    Except PyError Statement :=
  let columns := labels.zip statement.columns
  let fo : List (String × OrderedColumn) :=
    if statement.columns.contains SPLIT_DIMENSION_NAME then
      [(SPLIT_DIMENSION_NAME, .plain SPLIT_DIMENSION_NAME)]
    else []
  match explicit_order_pass columns order fo with
  | .error e => .error e
  | .ok fo1 =>
    match natural_order_pass columns natural_order fo1 with
    | .error e => .error e
    | .ok fo2 => .ok { statement with order_terms := statement.order_terms ++ fo2.map Prod.snd }

lemma contains_ne_nil {α : Type} [BEq α] (l : List α) (a : α)
    (h : l.contains a = true) : l.isEmpty = false := by
  cases l with
  | nil => simp at h
  | cons x xs => rfl

/-- C1: for every pair of allow/deny cube sets and every cube name, is_allowed
of the access right constructed from them equals, under deny_allow precedence
(allow_after_denied true), allowMatch OR NOT denyMatch, and under allow_deny,
allowMatch AND NOT denyMatch, where allowMatch and denyMatch are the section
4.1 match predicates (verbatim membership, universal wildcard, or any derived
leading/trailing pattern); these formulas are the section 4.1 truth table on
all four combinations of the two matches. -/
theorem C1_is_allowed_truth_table (allowed denied : List String) (name : String) :
    (dematAccessRight allowed denied).is_allowed name true
      = (spec_cube_match allowed (get_patterns_starts allowed) (get_patterns_suffix allowed) name
          || !spec_cube_match denied (get_patterns_starts denied) (get_patterns_suffix denied) name)
  ∧ (dematAccessRight allowed denied).is_allowed name false
      = (spec_cube_match allowed (get_patterns_starts allowed) (get_patterns_suffix allowed) name
          && !spec_cube_match denied (get_patterns_starts denied) (get_patterns_suffix denied) name) := by
  have ha := cube_match_eq_spec allowed name
  have hd := cube_match_eq_spec denied name
  constructor <;>
    · simp only [DematAccessRight.is_allowed, dematAccessRight]
      rw [ha, hd]
      simp

/-- C2: when the single rights fetch fails, for any failure mode, authorize
returns the empty sequence, while restricted_cell and hierarchy_limits
propagate the same failure to the caller. -/
theorem C2_fetch_failure_asymmetry (e : FetchError) (aad : Bool)
    (cubes : List String) (fS : String → Cube → Cut) (fD : CutDict → Cut)
    (cube : Cube) (cell : Option Cell) (cube2 : String) :
    authorize (.error e) aad cubes = []
  ∧ restricted_cell fS fD (.error e) cube cell = .error e
  ∧ hierarchy_limits (.error e) cube2 = .error e :=
  ⟨rfl, rfl, rfl⟩

/-- C3: with allowed cubes sales and star-underscore-test, denied cube
sales_test, and the four candidate cubes of the scenario, authorize keeps all
four candidates in candidate order under deny_allow (allow_after_denied true,
the flag deny_allow maps to) and keeps exactly sales and billing_test under
allow_deny (the flag allow_deny maps to). -/
theorem C3_end_to_end_scenarios :
    demat_order_flag (some "deny_allow") = .ok true
  ∧ authorize (.ok { allowed_cubes := ["sales", "*_test"], denied_cubes := ["sales_test"] })
        true ["sales", "hr", "sales_test", "billing_test"]
      = ["sales", "hr", "sales_test", "billing_test"]
  ∧ demat_order_flag (some "allow_deny") = .ok false
  ∧ authorize (.ok { allowed_cubes := ["sales", "*_test"], denied_cubes := ["sales_test"] })
        false ["sales", "hr", "sales_test", "billing_test"]
      = ["sales", "billing_test"] := by
  refine ⟨rfl, by decide, rfl, by decide⟩

/-- C4: the name sales_eu matches the allow set holding the trailing-star
entry sales-star; it matches the set holding the leading-star entry
star-underscore-eu while sales_us does not; any set holding the universal
wildcard matches every name; and pattern extraction at construction sends
each leading-star entry's remainder to the suffix list and each
trailing-star entry's leading part to the starts list. -/
theorem C4_wildcard_matching :
    cube_match ["sales*"] (get_patterns_starts ["sales*"]) (get_patterns_suffix ["sales*"]) "sales_eu" = true
  ∧ cube_match ["*_eu"] (get_patterns_starts ["*_eu"]) (get_patterns_suffix ["*_eu"]) "sales_eu" = true
  ∧ cube_match ["*_eu"] (get_patterns_starts ["*_eu"]) (get_patterns_suffix ["*_eu"]) "sales_us" = false
  ∧ (∀ (allowed : List String) (name : String),
      allowed.contains ALL_CUBES_WILDCARD = true →
      cube_match allowed (get_patterns_starts allowed) (get_patterns_suffix allowed) name = true)
  ∧ (∀ cubes : List String,
      get_patterns_suffix cubes
          = (cubes.filter (fun c => py_startswith c "*")).map py_drop_first
        ∧ get_patterns_starts cubes
          = (cubes.filter (fun c => py_endswith c "*")).map py_drop_last) := by
  refine ⟨by decide, by decide, by decide, ?_, fun cubes => ⟨rfl, rfl⟩⟩
  intro allowed name h
  rw [cube_match_eq_spec]
  unfold spec_cube_match
  rw [h]
  simp

/-- Witness for C4: the universal-wildcard component applied at the concrete
set holding only the wildcard and the name zzz. -/
theorem C4_wildcard_matching_witness :
    cube_match ["*"] (get_patterns_starts ["*"]) (get_patterns_suffix ["*"]) "zzz" = true :=
  C4_wildcard_matching.2.2.2.1 ["*"] "zzz" (by decide)

/-- C8: for every parser pair, provider response, cube and existing cell A,
restricted_cell on A equals the intersection of A with the restriction cell
restricted_cell computes when no existing cell is supplied. -/
theorem C8_restricted_cell_intersection (fS : String → Cube → Cut)
    (fD : CutDict → Cut) (data : RestrData) (cube : Cube) (A : Cell) :
    restricted_cell_core fS fD data cube (some A)
      = Cell.and A (restricted_cell_core fS fD data cube none) := rfl

/-- Modelled from the spec: cut_from_dict of the cells module (not among the
provided sources) constructs a cut directly from its structured form; the
constructed cut restricts the named dimension to the given values and is not
hidden by parsing itself. -/
def cut_from_dict (d : CutDict) : Cut :=
  { dimension := { name := d.dimension, info_type := none }
    values := d.values
    hidden := false }

/-- Modelled from the spec: cut_from_string of the cells module (not among
the provided sources) parses the string form against the cube's dimension
metadata; the embedding keeps only what the claims observe, naming the
dimension by the string, with no values and not hidden. -/
def cut_from_string (s : String) (_cube : Cube) : Cut :=
  { dimension := { name := s, info_type := none }, values := [], hidden := false }

lemma restriction_cuts_hidden (fS : String → Cube → Cut) (fD : CutDict → Cut)
    (data : RestrData) (cube : Cube) :
    ∀ c ∈ (restricted_cell_core fS fD data cube none).cuts, c.hidden = true := by
  intro c hc
  simp only [restricted_cell_core] at hc
  by_cases h : (dict_get data.cell_restrictions cube.name []
      ++ dict_get data.cell_restrictions ALL_CUBES_WILDCARD []).isEmpty
  · simp [h] at hc
  · simp only [h, Bool.false_eq_true, if_false, List.mem_map] at hc
    obtain ⟨spec, hmem, rfl⟩ := hc
    rfl

/-- The cube used in the concrete restriction statements below. -/
def c5_cube : Cube := { name := "sales" }

/-- A cut that is not hidden, for the existing-cell counterexample. -/
def c5_unhidden : Cut :=
  { dimension := { name := "region", info_type := none }
    values := ["EU"]
    hidden := false }

/-- An existing cell carrying the unhidden cut. -/
def c5_cell : Cell := { cube := c5_cube, cuts := [c5_unhidden] }

/-- A provider response with one structured restriction for the cube sales. -/
def c5_data : RestrData :=
  { cell_restrictions :=
      [("sales", [CutSpec.dictForm { dimension := "region", values := ["EU"] }])] }

/-- The hidden cut that response resolves to. -/
def c5_hidden_eu : Cut :=
  { dimension := { name := "region", info_type := none }
    values := ["EU"]
    hidden := true }

/-- C5 counterexample: with an empty restriction map and a non-null existing
cell holding one unhidden cut, the cell restricted_cell returns contains that
unhidden cut, so not every cut of the returned cell is hidden. -/
theorem C5_counterexample :
    ((restricted_cell_core cut_from_string cut_from_dict { cell_restrictions := [] }
        c5_cube (some c5_cell)).cuts.all (fun c => c.hidden)) = false := by
  decide

/-- C5 (amended): every cut of the cell returned by restricted_cell with a
null existing cell is hidden; with a non-null existing cell, every returned
cut beyond the existing cell's own cuts is hidden (the existing cell's cuts
pass through with whatever hidden flag they carried). -/
theorem C5_restriction_cuts_hidden (fS : String → Cube → Cut)
    (fD : CutDict → Cut) (data : RestrData) (cube : Cube) :
    (∀ c ∈ (restricted_cell_core fS fD data cube none).cuts, c.hidden = true)
  ∧ (∀ (A : Cell) (c : Cut),
      c ∈ (restricted_cell_core fS fD data cube (some A)).cuts
      → c ∈ A.cuts ∨ c.hidden = true) := by
  refine ⟨restriction_cuts_hidden fS fD data cube, ?_⟩
  intro A c hc
  have he : restricted_cell_core fS fD data cube (some A)
      = Cell.and A (restricted_cell_core fS fD data cube none) := rfl
  rw [he] at hc
  simp only [Cell.and, List.mem_append] at hc
  rcases hc with h1 | h2
  · exact Or.inl h1
  · exact Or.inr (restriction_cuts_hidden fS fD data cube c h2)

/-- Witness for C5: the amended theorem applied at the concrete provider
response, cube and existing cell, with both membership hypotheses discharged
by evaluation. -/
theorem C5_restriction_cuts_hidden_witness :
    c5_hidden_eu.hidden = true ∧ (c5_unhidden ∈ c5_cell.cuts ∨ c5_unhidden.hidden = true) :=
  ⟨(C5_restriction_cuts_hidden cut_from_string cut_from_dict c5_data c5_cube).1
      c5_hidden_eu (by decide),
   (C5_restriction_cuts_hidden cut_from_string cut_from_dict c5_data c5_cube).2
      c5_cell c5_unhidden (by decide)⟩

/-- A provider response whose restriction map registers one structured cut,
region restricted to EU, only under the universal wildcard key. -/
def c6_data : RestrData :=
  { cell_restrictions :=
      [(ALL_CUBES_WILDCARD, [CutSpec.dictForm { dimension := "region", values := ["EU"] }])] }

/-- The hidden region-EU cut that response resolves to. -/
def c6_eu_cut : Cut :=
  { dimension := { name := "region", info_type := none }
    values := ["EU"]
    hidden := true }

/-- C6 counterexample: at a cube literally named by the universal wildcard,
the same wildcard-only restriction map yields the cut twice (the lookup under
the cube's name and the lookup under the wildcard both hit the same entry),
so the returned cell does not contain exactly one cut. -/
theorem C6_counterexample :
    (restricted_cell_core cut_from_string cut_from_dict c6_data
        { name := "*" } none).cuts = [c6_eu_cut, c6_eu_cut]
  ∧ ¬ (restricted_cell_core cut_from_string cut_from_dict c6_data { name := "*" } none
        = { cube := { name := "*" }, cuts := [c6_eu_cut] }) := by
  exact ⟨by decide, by decide⟩

/-- C6 (amended): when the restriction map registers the region-EU cut only
under the universal wildcard key, restricted_cell with a null existing cell
returns a cell with exactly that one hidden cut for every cube whose name is
not itself the universal wildcard. -/
theorem C6_wildcard_restriction_cell (cube : Cube)
    (h : cube.name ≠ ALL_CUBES_WILDCARD) :
    restricted_cell_core cut_from_string cut_from_dict c6_data cube none
      = { cube := cube, cuts := [c6_eu_cut] } := by
  have hb : (cube.name == ALL_CUBES_WILDCARD) = false := by
    exact beq_eq_false_iff_ne.mpr h
  simp [restricted_cell_core, dict_get, c6_data, List.lookup, hb, cut_from_dict, c6_eu_cut]

/-- Witness for C6: the amended theorem at a cube named sales, the hypothesis
discharged by evaluation. -/
theorem C6_wildcard_restriction_cell_witness :
    restricted_cell_core cut_from_string cut_from_dict c6_data { name := "sales" } none
      = { cube := { name := "sales" }, cuts := [c6_eu_cut] } :=
  C6_wildcard_restriction_cell { name := "sales" } (by decide)

/-- The cut list of an optional cell, empty when there is no cell; lets the
partition statements speak uniformly about both returned cells. -/
def optCuts : Option Cell → List Cut
  | some c => c.cuts
  | none => []

/-- C7: splitting any cell is a lossless partition: a cut is in the returned
data cell or in the returned permission cell exactly when it is in the input
cell, no cut is in both, and when no cut's dimension carries the Permission
type tag the data cell is the input cell unchanged and the permission cell is
absent. -/
theorem C7_permission_split (c : Cell) :
    (∀ x : Cut,
      (x ∈ optCuts (extract_permissions_from_cell (some c)).1
        ∨ x ∈ optCuts (extract_permissions_from_cell (some c)).2) ↔ x ∈ c.cuts)
  ∧ (∀ x : Cut,
      ¬(x ∈ optCuts (extract_permissions_from_cell (some c)).1
        ∧ x ∈ optCuts (extract_permissions_from_cell (some c)).2))
  ∧ ((∀ x ∈ c.cuts, x.dimension.info_type ≠ some "Permission")
      → extract_permissions_from_cell (some c) = (some c, none)) := by
  by_cases hp : (c.cuts.filter
      (fun cut => decide (cut.dimension.info_type = some "Permission"))).isEmpty
  · have he : extract_permissions_from_cell (some c) = (some c, none) := by
      simp only [extract_permissions_from_cell, hp, if_true]
    rw [he]
    refine ⟨?_, ?_, fun _ => rfl⟩
    · intro x
      simp [optCuts]
    · intro x
      simp [optCuts]
  · have he : extract_permissions_from_cell (some c)
        = (some { cube := c.cube
                  cuts := c.cuts.filter (fun cut => !(decide (cut ∈ c.cuts.filter
                    (fun cut2 => decide (cut2.dimension.info_type = some "Permission"))))) },
           some { cube := c.cube
                  cuts := c.cuts.filter
                    (fun cut => decide (cut.dimension.info_type = some "Permission")) }) := by
      simp only [extract_permissions_from_cell, hp, Bool.false_eq_true, if_false]
    rw [he]
    refine ⟨?_, ?_, ?_⟩
    · intro x
      simp only [optCuts]
      constructor
      · rintro (hx | hx)
        · exact (List.mem_filter.mp hx).1
        · exact (List.mem_filter.mp hx).1
      · intro hx
        by_cases hxp : x ∈ c.cuts.filter
            (fun cut2 => decide (cut2.dimension.info_type = some "Permission"))
        · exact Or.inr hxp
        · refine Or.inl (List.mem_filter.mpr ⟨hx, ?_⟩)
          simp [hxp]
    · intro x hx
      obtain ⟨h1, h2⟩ := hx
      simp only [optCuts] at h1 h2
      have h1m := (List.mem_filter.mp h1).2
      rw [Bool.not_eq_true', decide_eq_false_iff_not] at h1m
      exact h1m h2
    · intro hnone
      exfalso
      have hne : c.cuts.filter
          (fun cut => decide (cut.dimension.info_type = some "Permission")) ≠ [] := by
        intro hnil
        rw [hnil] at hp
        exact hp rfl
      obtain ⟨y, hy⟩ := List.exists_mem_of_ne_nil _ hne
      have := List.mem_filter.mp hy
      exact hnone y this.1 (of_decide_eq_true this.2)

/-- A cell with one ordinary cut, used to witness the unchanged case of C7. -/
def c7_cell : Cell :=
  { cube := { name := "sales" }
    cuts := [{ dimension := { name := "region", info_type := none }
               values := ["EU"]
               hidden := false }] }

/-- Witness for C7: the no-permission component applied at the concrete cell,
its hypothesis discharged by evaluation. -/
theorem C7_permission_split_witness :
    extract_permissions_from_cell (some c7_cell) = (some c7_cell, none) :=
  (C7_permission_split c7_cell).2.2 (by decide)

/-- C9: evaluation of the natural-order merging step at a statement selecting
one column x (labelled x) with no explicit order and a natural ascending
order declared for x. The claim expects the natural ordering term for x to be
appended; the source's guard instead reads the name order_by, defined nowhere
in the module, so the call raises a NameError for that name and no ordering
is produced. -/
theorem C9_natural_order_reads_undefined_name :
    order_query { columns := ["x"], order_terms := [] } [] [("x", some "asc")] ["x"]
      = .error (.nameError "order_by") := rfl

/-- C10: evaluation of the unrecognized-direction branch. The direction
sideways is non-empty and neither asc- nor desc-prefixed, so order_column
reaches the raise line; evaluating that line fails on the undefined name
ArgumentError (the module never imports it, and the percent formatting sits
outside the constructor call), so what propagates out of order_query is a
NameError, the statement never reaching its ORDER BY update. -/
theorem C10_unknown_direction_raises :
    order_column "colx" (some "sideways") = .error (.nameError "ArgumentError")
  ∧ order_query { columns := ["x"], order_terms := [] } [("x", some "sideways")] [] ["x"]
      = .error (.nameError "ArgumentError") := by
  exact ⟨rfl, rfl⟩
